import Mathlib

/-!
Verification of the Prometheus evidence ingestion & pattern-matching
pipeline (`src/`): a shallow embedding of the regex engine, content
navigator, database reader, archive reader, evidence models, resilient
runner and reporter, with theorems about the behaviours the spec
describes.

Texts scanned by the regex engine are modelled as `List Char` (Python
`str` slicing is by code point).  Machine integers are `Nat`.  Fallible
operations return `Option` or `Except`.  External collaborators (the
`re` library's compiled-pattern match finder, the sqlite engine, the
text-conversion capability) are passed in as explicit function
parameters, as the spec treats them as external capabilities.
-/

/-- One compiled pattern rule, as in `regex_engine.RegexPattern`
(name, expression source, flag bitset).  The compiled matcher itself
lives in the external `re` library and is supplied separately as a
`Finder`. -/
structure RegexPattern where
  name : String
  expression : String
  flags : Nat := 0
deriving DecidableEq, Repr

/-- One match occurrence, as in `regex_engine.RegexMatch`.  The field
`stop` embeds the Python `end` offset (a reserved word in Lean). -/
structure RegexMatch where
  pattern : RegexPattern
  value : List Char
  start : Nat
  stop : Nat
  context : List Char
  location : Option String := none
deriving DecidableEq, Repr

/-- `RegexMatch.with_location`, as in the source: returns a copy with
the location descriptor replaced. -/
def RegexMatch.with_location (m : RegexMatch) (loc : String) : RegexMatch :=
  { m with location := some loc }

/-- `regex_engine._extract_context`:
`left = max(start - window, 0)`, `right = min(end + window, len(text))`,
result `text[left:right]`.  (`Nat` subtraction already truncates at 0.) -/
def extract_context (text : List Char) (start stop window : Nat) : List Char :=
  (text.drop (start - window)).take (min (stop + window) text.length - (start - window))

/-- The match-finding capability of the external `re` library: for a
compiled pattern and a text, the list of non-overlapping match spans in
left-to-right document order (what `pattern.finditer(text)` produces). -/
def Finder : Type := RegexPattern → List Char → List (Nat × Nat)

/-- `RegexEngine.scan_text`: outer loop over patterns in declaration
order, inner loop over that pattern's matches; each match records its
value (`text[start:end]`) and surrounding context. -/
def scan_text (find : Finder) (patterns : List RegexPattern) (text : List Char)
    (context_window : Nat) : List RegexMatch :=
  patterns.flatMap fun p =>
    (find p text).map fun se =>
      { pattern := p
        value := (text.drop se.1).take (se.2 - se.1)
        start := se.1
        stop := se.2
        context := extract_context text se.1 se.2 context_window }

/-- A table cell as seen by `RegexEngine.scan_table`: either a Python
string or some non-string value (which the scanner must skip). -/
inductive Cell where
  | str (s : List Char)
  | nonstr
deriving DecidableEq, Repr

/-- One table row: a Python `dict` in insertion order. -/
abbrev Row : Type := List (String × Cell)

/-- `row.get(column, "")`: lookup with empty-string default. -/
def rowGet (row : Row) (c : String) : Cell :=
  match row.lookup c with
  | some v => v
  | none => Cell.str []

/-- The iterable chosen inside `scan_table`'s row loop:
`((column, row.get(column, "")) for column in columns) if columns else
row.items()` — note Python truthiness makes both `None` and the empty
list fall back to `row.items()`. -/
def rowCells (row : Row) (columns : Option (List String)) : List (String × Cell) :=
  match columns with
  | some cols => if cols ≠ [] then cols.map (fun c => (c, rowGet row c)) else row
  | none => row

/-- The location descriptor `f"row={row_index};column={column_name}"`. -/
def locString (rowIndex : Nat) (columnName : String) : String :=
  "row=" ++ toString rowIndex ++ ";column=" ++ columnName

/-- `RegexEngine.scan_table`: enumerate rows, iterate the chosen cells,
skip non-string values, scan string values and stamp each match with
the location descriptor. -/
def scan_table (find : Finder) (patterns : List RegexPattern) (rows : List Row)
    (columns : Option (List String)) (context_window : Nat) : List RegexMatch :=
  rows.enum.flatMap fun ir =>
    (rowCells ir.2 columns).flatMap fun nc =>
      match nc.2 with
      | Cell.nonstr => []
      | Cell.str v =>
          (scan_text find patterns v context_window).map fun m =>
            m.with_location (locString ir.1 nc.1)

/-- Non-overlapping left-to-right occurrences of a literal pattern, the
behaviour of `re.finditer` on an escaped-literal expression: at each
position try the literal; on success emit the span and resume after it,
otherwise advance one character. -/
def literalFindAux (pat text : List Char) : Nat → Nat → List (Nat × Nat)
  | 0, _ => []
  | fuel + 1, pos =>
      if pos ≥ text.length then []
      else if pat ≠ [] ∧ (text.drop pos).take pat.length = pat then
        (pos, pos + pat.length) :: literalFindAux pat text fuel (pos + pat.length)
      else
        literalFindAux pat text fuel (pos + 1)

/-- Entry point for `literalFindAux`, starting at offset zero with
enough fuel for every scan position. -/
def literalFind (pat text : List Char) : List (Nat × Nat) :=
  literalFindAux pat text (text.length + 1) 0

/-- An email-matching rule (compiled with the engine's default
`IGNORECASE = 2` flag set), used to instantiate the spec's table-scan
example. -/
def emailRule : RegexPattern :=
  { name := "email", expression := "x@y\\.com", flags := 2 }

/-- The external match finder instantiated for `emailRule`: its
compiled expression matches exactly the literal occurrences of
`x@y.com`. -/
def emailFind : Finder := fun p text =>
  if p.name = "email" then literalFind "x@y.com".toList text else []

/-- The two rows of the spec's table-scan example:
`[{"c": "none"}, {"c": "contact x@y.com"}]`. -/
def exampleRows : List Row :=
  [[("c", Cell.str "none".toList)], [("c", Cell.str "contact x@y.com".toList)]]

/-- The single match the spec's table-scan example must produce. -/
def exampleMatch : RegexMatch :=
  { pattern := emailRule
    value := "x@y.com".toList
    start := 8
    stop := 15
    context := "contact x@y.com".toList
    location := some "row=1;column=c" }

/-! ### Database reader (`database_reader.py`) -/

/-- A byte, as stored in a sqlite BLOB or an archive member. -/
abbrev Byte : Type := Fin 256

/-- Decoder state for strict UTF-8 decoding (the behaviour of Python's
`bytes.decode("utf-8")`): `pending` continuation bytes still expected,
`cp` the partial code point, `minCp` the smallest code point the
current sequence is allowed to produce (overlong rejection). -/
structure Utf8State where
  acc : List Char
  pending : Nat
  cp : Nat
  minCp : Nat
  bad : Bool

/-- One step of the strict UTF-8 decoder: classifies a lead byte
(rejecting 0x80–0xBF and 0xF8–0xFF there), accumulates continuation
bytes, and on completion rejects overlong encodings, surrogates and
code points above 0x10FFFF — exactly the inputs Python's strict
decoder rejects. -/
def utf8Step (st : Utf8State) (b : Byte) : Utf8State :=
  if st.bad then st
  else if st.pending = 0 then
    if b.val < 0x80 then { st with acc := st.acc ++ [Char.ofNat b.val] }
    else if b.val < 0xC0 then { st with bad := true }
    else if b.val < 0xE0 then { st with pending := 1, cp := b.val - 0xC0, minCp := 0x80 }
    else if b.val < 0xF0 then { st with pending := 2, cp := b.val - 0xE0, minCp := 0x800 }
    else if b.val < 0xF8 then { st with pending := 3, cp := b.val - 0xF0, minCp := 0x10000 }
    else { st with bad := true }
  else
    if 0x80 ≤ b.val ∧ b.val < 0xC0 then
      let cp := st.cp * 64 + (b.val - 0x80)
      if st.pending = 1 then
        if st.minCp ≤ cp ∧ cp ≤ 0x10FFFF ∧ ¬(0xD800 ≤ cp ∧ cp ≤ 0xDFFF) then
          { st with pending := 0, cp := 0, acc := st.acc ++ [Char.ofNat cp] }
        else { st with bad := true }
      else { st with pending := st.pending - 1, cp := cp }
    else { st with bad := true }

/-- `value.decode("utf-8")`: strict UTF-8 decoding of a byte string,
failing (raising `UnicodeDecodeError`) on any invalid sequence. -/
def utf8Decode (bs : List Byte) : Except Unit (List Char) :=
  let st := bs.foldl utf8Step { acc := [], pending := 0, cp := 0, minCp := 0, bad := false }
  if st.bad ∨ st.pending ≠ 0 then Except.error () else Except.ok st.acc

/-- `value.decode("latin-1", errors="ignore")`: the permissive
single-byte decoding — every byte maps to the code point of the same
value, so it succeeds on every input. -/
def latin1_decode (bs : List Byte) : List Char :=
  bs.map fun b => Char.ofNat b.val

/-- A value read from a sqlite cell, as dispatched on by
`UFDRDatabaseReader._normalize_value`: `NULL`, a BLOB, or any other
value, carried here by its Python `str()` rendering (the external
string conversion). -/
inductive SqlValue where
  | null
  | blob (bs : List Byte)
  | other (s : String)

/-- `UFDRDatabaseReader._normalize_value`: `None` → empty string, bytes
→ UTF-8 decode with latin-1 fallback on decode failure, anything else →
its string conversion. -/
def normalize_value : SqlValue → String
  | SqlValue.null => ""
  | SqlValue.blob bs =>
      match utf8Decode bs with
      | Except.ok cs => String.mk cs
      | Except.error _ => String.mk (latin1_decode bs)
  | SqlValue.other s => s

/-- `UFDRDatabaseReader._normalize_row`: normalize every value of the
zipped column-name → value mapping. -/
def normalize_row (raw : List (String × SqlValue)) : List (String × String) :=
  raw.map fun kv => (kv.1, normalize_value kv.2)

/-! ### Archive reader (`extractor.py`) -/

/-- `extractor.UFDRMember`: metadata of one member of an evidence
container.  The optional modification time is abstracted to a `Nat`
tick. -/
structure UFDRMember where
  name : String
  size : Nat
  compressed_size : Nat
  is_dir : Bool
  modified : Option Nat
deriving DecidableEq, Repr

/-- An evidence container's readable contents: member name → member
bytes. -/
abbrev Archive : Type := List (String × List Byte)

/-- Modelled from the spec: `UFDRExtractor.open_member` is invoked by
`UFDRDatabaseReader._materialize_member` and
`UFDRContentNavigator._collect_text_payload` but is not defined
anywhere in the source tree.  Per §4.1, `openMember(name)` returns a
scoped, sequentially-readable byte stream for one member — here the
member's full byte sequence, `none` when no such member exists. -/
def open_member (archive : Archive) (name : String) : Option (List Byte) :=
  archive.lookup name

/-- `UFDRDatabaseReader._materialize_member`: copy the member's byte
stream (`shutil.copyfileobj`) to a scratch file and hand that file to
the caller — modelled as the scratch file's resulting contents, which
are exactly the fully-consumed stream. -/
def materialize_member (archive : Archive) (memberName : String) : Option (List Byte) :=
  (open_member archive memberName).map fun stream => stream

/-! ### Pattern configuration loading (`regex_engine._pattern_from_mapping`) -/

/-- The value found under a pattern entry's `flags` (or `options`) key:
a JSON string, a list, or a value of any other type. -/
inductive FlagsValue where
  | str (s : String)
  | list (l : List FlagsValue)
  | other

/-- `_FLAG_TABLE`: recognized flag names and the `re` module's flag
bits (`IGNORECASE = 2`, `MULTILINE = 8`, `DOTALL = 16`,
`UNICODE = 32`). -/
def FLAG_TABLE : List (String × Nat) :=
  [("ignorecase", 2), ("multiline", 8), ("dotall", 16), ("unicode", 32)]

/-- Python's `str.lower()` for the ASCII identifiers this pipeline
lowers (flag names, file extensions). -/
def str_lower (s : String) : String :=
  String.mk (s.toList.map Char.toLower)

/-- The list branch of the flag-resolution code: iterate the supplied
flag names, failing on the first non-string element or unrecognized
name, OR-combining the recognized bits. -/
def resolveFlagList : List FlagsValue → Nat → Except String Nat
  | [], acc => Except.ok acc
  | FlagsValue.str s :: rest, acc =>
      match FLAG_TABLE.lookup (str_lower s) with
      | some b => resolveFlagList rest (acc ||| b)
      | none => Except.error ("Unsupported regex flag " ++ s)
  | _ :: _, _ => Except.error "Regex flag names must be strings"

/-- Lines 149–163 of `regex_engine.py`: resolve the raw `flags` value.
A missing value keeps the default flags; a single string is looked up
with `.get(..., default_flags)` (silently keeping the default when the
name is unrecognized); a list is folded by `resolveFlagList`; any other
type is an error. -/
def resolveFlags (raw : Option FlagsValue) (default_flags : Nat) : Except String Nat :=
  match raw with
  | none => Except.ok default_flags
  | some (FlagsValue.str s) => Except.ok ((FLAG_TABLE.lookup (str_lower s)).getD default_flags)
  | some (FlagsValue.list l) => resolveFlagList l 0
  | some FlagsValue.other => Except.error "Regex flags must be a string or list of strings"

/-- The flag bitset stored on the constructed `RegexPattern`,
including the final `flags=flags or default_flags` truthiness
fallback. -/
def pattern_flags (raw : Option FlagsValue) (default_flags : Nat) : Except String Nat :=
  (resolveFlags raw default_flags).map fun f => if f = 0 then default_flags else f

/-! ### Content navigator (`content_navigator.py`) -/

/-- `content_navigator.TEXTUAL_EXTENSIONS`. -/
def TEXTUAL_EXTENSIONS : List String :=
  [".txt", ".csv", ".tsv", ".json", ".xml", ".html", ".htm", ".md", ".rtf",
   ".pdf", ".eml", ".msg", ".doc", ".docx", ".ppt", ".pptx", ".xls", ".xlsx",
   ".ics", ".vcf", ".epub", ".odt", ".odp", ".ods", ".log"]

/-- `content_navigator.IMAGE_EXTENSIONS`. -/
def IMAGE_EXTENSIONS : List String :=
  [".png", ".jpg", ".jpeg", ".heic", ".heif", ".tiff", ".tif", ".bmp", ".gif", ".webp"]

/-- Index of the last `'.'` in a file name, if any. -/
def lastDotIdx (cs : List Char) : Option Nat :=
  ((cs.enum.filter fun p => p.2 = '.').map fun p => p.1).getLast?

/-- Split a character list on a separator character, Python
`str.split(sep)` semantics (an empty input yields one empty field). -/
def splitOnChar (sep : Char) : List Char → List (List Char)
  | [] => [[]]
  | c :: rest =>
      let r := splitOnChar sep rest
      if c = sep then [] :: r
      else
        match r with
        | [] => [[c]]
        | h :: t => (c :: h) :: t

/-- `Path(name).suffix`: the extension (with dot) of the final path
component; empty when the last dot is leading or trailing (CPython
keeps `name[i:]` only when `0 < i < len(name) - 1`). -/
def pathSuffix (name : String) : String :=
  let base := (splitOnChar '/' name.toList).getLastD []
  match lastDotIdx base with
  | some i => if 0 < i ∧ i + 1 < base.length then String.mk (base.drop i) else ""
  | none => ""

/-- `UFDRContentNavigator._is_database`: not a directory and a
recognized sqlite extension. -/
def is_database (m : UFDRMember) : Bool :=
  !m.is_dir && [".db", ".sqlite", ".sqlite3", ".s3db"].contains (str_lower (pathSuffix m.name))

/-- `UFDRContentNavigator._is_textual`: a recognized textual or image
extension. -/
def is_textual (m : UFDRMember) : Bool :=
  TEXTUAL_EXTENSIONS.contains (str_lower (pathSuffix m.name))
    || IMAGE_EXTENSIONS.contains (str_lower (pathSuffix m.name))

/-- `content_navigator.NavigatorPlan`. -/
structure NavigatorPlan where
  members : List UFDRMember
  database_members : List UFDRMember
  textual_members : List UFDRMember
deriving DecidableEq, Repr

/-- `UFDRContentNavigator.plan_processing`: partition the archive's
members into database members and non-directory textual/image
members. -/
def plan_processing (members : List UFDRMember) : NavigatorPlan :=
  { members := members
    database_members := members.filter is_database
    textual_members := members.filter fun m => !m.is_dir && is_textual m }

/-- `UFDRContentNavigator._guess_file_type`: content category derived
from the member's extension alone. -/
def guess_file_type (m : UFDRMember) : String :=
  let suffix := str_lower (pathSuffix m.name)
  if IMAGE_EXTENSIONS.contains suffix then "image"
  else if TEXTUAL_EXTENSIONS.contains suffix then
    if [".pdf", ".doc", ".docx", ".ppt", ".pptx"].contains suffix then "document"
    else if [".xls", ".xlsx", ".ods"].contains suffix then "spreadsheet"
    else if [".eml", ".msg"].contains suffix then "email"
    else if suffix = ".ics" then "calendar"
    else if suffix = ".vcf" then "contact"
    else "text"
  else "binary"

/-- `database_reader.DatabaseRow`. -/
structure DatabaseRow where
  source_file : String
  internal_path : String
  table : String
  row_index : Nat
  values : List (String × String)
deriving DecidableEq, Repr

/-- The payload kind of `content_navigator.EvidencePayload`. -/
inductive PayloadType where
  | database_row
  | text
deriving DecidableEq, Repr

/-- An `EvidencePayload`'s content: a mapping of fields (database row)
or raw text. -/
inductive PayloadContent where
  | fields (m : List (String × String))
  | textC (t : String)
deriving DecidableEq, Repr

/-- An `EvidencePayload`'s metadata: the two shapes the navigator
constructs — table name plus row index for database rows, conversion
engine for text. -/
inductive PayloadMetadata where
  | dbMeta (table : String) (row_index : Nat)
  | engineMeta (engine : String)
deriving DecidableEq, Repr

/-- `content_navigator.EvidencePayload`. -/
structure EvidencePayload where
  source_file : String
  internal_path : String
  payload_type : PayloadType
  file_type : String
  content : PayloadContent
  metadata : PayloadMetadata
  modified : Option Nat
deriving DecidableEq, Repr

/-- Progress stage of `content_navigator.TextualProgressEvent`. -/
inductive Stage where
  | start
  | done
  | skip
deriving DecidableEq, Repr

/-- `content_navigator.TextualProgressEvent`. -/
structure TextualProgressEvent where
  member : UFDRMember
  index : Nat
  total : Nat
  stage : Stage
  engine : Option String
deriving DecidableEq, Repr

/-- One observable step of `collect_payloads`: a progress notification
delivered to the callback, or a yielded payload. -/
inductive TraceItem where
  | event (e : TextualProgressEvent)
  | payload (p : EvidencePayload)
deriving DecidableEq, Repr

/-- Outcome of the external text-conversion capability for one member
(`TextExtractor.extract` together with the member-stream open), as the
navigator's `try` block observes it: a result, a
`MissingDependencyError`, or any other exception. -/
inductive ExtractionOutcome where
  | ok (text : String) (engine : String)
  | missingDependency (msg : String)
  | failure (msg : String)

/-- The navigator's external collaborators: the sqlite row stream each
database member produces, and the text-conversion outcome of each
textual member. -/
structure NavEnv where
  dbRows : UFDRMember → List DatabaseRow
  extractText : UFDRMember → ExtractionOutcome

/-- `UFDRContentNavigator._collect_database_rows`: one `database_row`
payload per streamed row, carrying table name and row index as
metadata. -/
def collect_database_rows (env : NavEnv) (m : UFDRMember) : List EvidencePayload :=
  (env.dbRows m).map fun r =>
    { source_file := r.source_file
      internal_path := r.internal_path
      payload_type := PayloadType.database_row
      file_type := "database"
      content := PayloadContent.fields r.values
      metadata := PayloadMetadata.dbMeta r.table r.row_index
      modified := m.modified }

/-- Python's `str.strip()`: remove leading and trailing whitespace. -/
def str_strip (s : String) : String :=
  String.mk (((s.toList.dropWhile Char.isWhitespace).reverse.dropWhile
    Char.isWhitespace).reverse)

/-- `UFDRContentNavigator._collect_text_payload`: a missing dependency
or any other conversion failure is logged and skipped; a successful
conversion whose text is empty after stripping is skipped; otherwise a
`text` payload and the engine name are returned. -/
def collect_text_payload (ufdr_path : String) (env : NavEnv) (m : UFDRMember) :
    Option (EvidencePayload × String) :=
  match env.extractText m with
  | ExtractionOutcome.missingDependency _ => none
  | ExtractionOutcome.failure _ => none
  | ExtractionOutcome.ok text engine =>
      if str_strip text = "" then none
      else
        some
          ({ source_file := ufdr_path
             internal_path := m.name
             payload_type := PayloadType.text
             file_type := guess_file_type m
             content := PayloadContent.textC text
             metadata := PayloadMetadata.engineMeta engine
             modified := m.modified }, engine)

/-- The trace of one textual member inside `collect_payloads`'s loop:
a `start` event, then either a `done` event followed by the yielded
payload, or a `skip` event. -/
def textual_member_trace (ufdr_path : String) (env : NavEnv) (total : Nat)
    (idx : Nat) (m : UFDRMember) : List TraceItem :=
  TraceItem.event { member := m, index := idx, total := total, stage := Stage.start, engine := none } ::
    match collect_text_payload ufdr_path env m with
    | some (p, engine) =>
        [TraceItem.event { member := m, index := idx, total := total, stage := Stage.done, engine := some engine },
         TraceItem.payload p]
    | none =>
        [TraceItem.event { member := m, index := idx, total := total, stage := Stage.skip, engine := none }]

/-- The textual half of `collect_payloads`: members processed one at a
time in plan order, `enumerate(textual_members, start=1)`. -/
def textual_trace (ufdr_path : String) (env : NavEnv) (ms : List UFDRMember) : List TraceItem :=
  ms.enum.flatMap fun im =>
    textual_member_trace ufdr_path env ms.length (im.1 + 1) im.2

/-- `UFDRContentNavigator.collect_payloads`: first every database
member is fully drained into `database_row` payloads, then the textual
members are processed one at a time with progress events. -/
def collect_payloads (ufdr_path : String) (env : NavEnv) (plan : NavigatorPlan) :
    List TraceItem :=
  (plan.database_members.flatMap fun m => (collect_database_rows env m).map TraceItem.payload)
    ++ textual_trace ufdr_path env plan.textual_members

/-! ### Evidence model and reporter (`models.py`, `reporter.py`) -/

/-- `models.EvidenceMatch`: one consolidated evidence record. -/
structure EvidenceMatch where
  source_file : String
  internal_path : String
  pattern_type : String
  match_value : String
  file_type : Option String := none
  context : Option String := none
  timestamp : Option String := none
deriving DecidableEq, Repr

/-- `EvidenceMatch.to_dict`: the serialized object in dataclass field
order with every `None`-valued key removed. -/
def to_dict (m : EvidenceMatch) : List (String × String) :=
  [("source_file", m.source_file), ("internal_path", m.internal_path),
   ("pattern_type", m.pattern_type), ("match_value", m.match_value)]
    ++ (match m.file_type with | some v => [("file_type", v)] | none => [])
    ++ (match m.context with | some v => [("context", v)] | none => [])
    ++ (match m.timestamp with | some v => [("timestamp", v)] | none => [])

/-- `ResultReporter._write_json`: the structured artifact's parsed
shape — one serialized object per accumulated record, in order.  (The
byte-level rendering and re-parsing is the external `json` library's
faithful round-trip.) -/
def write_json (records : List EvidenceMatch) : List (List (String × String)) :=
  records.map to_dict

/-- Reading one object of the structured report back into a record:
the four required fields must be present; the optional fields are taken
when present. -/
def from_dict (d : List (String × String)) : Option EvidenceMatch :=
  match d.lookup "source_file", d.lookup "internal_path",
      d.lookup "pattern_type", d.lookup "match_value" with
  | some a, some b, some c, some v =>
      some
        { source_file := a
          internal_path := b
          pattern_type := c
          match_value := v
          file_type := d.lookup "file_type"
          context := d.lookup "context"
          timestamp := d.lookup "timestamp" }
  | _, _, _, _ => none

/-! ### Resilient runner (`logger.execute_with_resilience`, `main.run_pipeline`) -/

/-- `logger.execute_with_resilience`: run `action` on every item; an
action that raises leaves its partial state changes in place, the item
is appended to the failures list, and iteration continues.  The action
is modelled as a state transformer returning the state at normal
completion or at the point the exception was raised, plus the raised
error, if any. -/
def execute_with_resilience {α σ ε : Type} (items : List α)
    (action : α → σ → σ × Option ε) (s0 : σ) : σ × List α :=
  items.foldl
    (fun acc item =>
      let r := action item acc.1
      (r.1, match r.2 with
        | some _ => acc.2 ++ [item]
        | none => acc.2))
    (s0, [])

/-- `main.process_file` as the runner's action on one archive path.
Its first statement, `UFDRContentNavigator(path,
allowed_extensions=allowed_extensions)`, raises `TypeError` for every
archive: the navigator's `__init__` accepts only `ufdr_path` and has no
`allowed_extensions` parameter.  The exception therefore occurs before
the plan is computed and before any `reporter.extend_matches` call, so
the reporter state is returned unchanged together with the raised
error. -/
def process_file_model (_path : String) (s : List EvidenceMatch) :
    List EvidenceMatch × Option String :=
  (s, some "TypeError: unexpected keyword argument allowed_extensions")

/-- The run summary `main.run_pipeline` returns. -/
structure RunSummary where
  processed : Nat
  failures : List String
  match_total : Nat
deriving DecidableEq, Repr

/-- `main.run_pipeline`'s runner boundary: process every discovered
archive path with `execute_with_resilience`, then report
`processed = len(ufdr_paths)`, the failed paths, and the accumulated
match count; also returns the reporter's accumulated records. -/
def run_pipeline_model (paths : List String) : RunSummary × List EvidenceMatch :=
  ({ processed := paths.length
     failures := (execute_with_resilience paths process_file_model []).2
     match_total := (execute_with_resilience paths process_file_model []).1.length },
   (execute_with_resilience paths process_file_model []).1)

/-! ### Concrete instances used to witness the theorems -/

/-- A database member of a concrete evidence container. -/
def member0 : UFDRMember :=
  { name := "files/chat.db", size := 64, compressed_size := 32, is_dir := false,
    modified := some 100 }

/-- A textual member of the same container. -/
def member1 : UFDRMember :=
  { name := "files/notes.txt", size := 5, compressed_size := 5, is_dir := false,
    modified := some 101 }

/-- A processing plan containing one database and one textual member. -/
def plan0 : NavigatorPlan :=
  { members := [member0, member1]
    database_members := [member0]
    textual_members := [member1] }

/-- One row streamed from the concrete database member. -/
def exampleDbRow : DatabaseRow :=
  { source_file := "case.ufdr", internal_path := "files/chat.db", table := "messages",
    row_index := 0, values := [("body", "hello x@y.com")] }

/-- A concrete environment: the database member streams one row and
text conversion succeeds with non-blank text. -/
def env0 : NavEnv :=
  { dbRows := fun _ => [exampleDbRow]
    extractText := fun _ => ExtractionOutcome.ok "hello" "plain" }

/-- The text payload `collect_payloads` yields for `member1` under
`env0`. -/
def payload0 : EvidencePayload :=
  { source_file := "case.ufdr"
    internal_path := "files/notes.txt"
    payload_type := PayloadType.text
    file_type := "text"
    content := PayloadContent.textC "hello"
    metadata := PayloadMetadata.engineMeta "plain"
    modified := some 101 }

/-- A concrete evidence container content for the archive-reader
theorems. -/
def archive0 : Archive := [("files/chat.db", [7, 22, 255])]

/-! ## Theorems -/

/-- C10: calling `scan_table` with an empty column-subset list scans
every column of every row, exactly as calling it with no column
restriction at all, because the Python `if columns` truthiness check
treats the empty list like `None`. -/
theorem scan_table_empty_columns_eq_none (find : Finder)
    (patterns : List RegexPattern) (rows : List Row) (w : Nat) :
    scan_table find patterns rows (some []) w =
      scan_table find patterns rows none w := by
  simp [scan_table, rowCells]

/-- C5: for every text, every match span `[start, stop)` and every
context window `w`, the captured context equals the substring of the
text from `max(start - w, 0)` to `min(stop + w, length)` — that is,
`min(w, start)` characters before the match and
`min(w, length - stop)` characters after it, clamped at the text
boundaries; and every match `scan_text` returns carries exactly that
context. -/
theorem extract_context_window_correct (text : List Char) (s e w : Nat)
    (h1 : s ≤ e) (h2 : e ≤ text.length) :
    extract_context text s e w =
      (text.take s).drop (s - min w s) ++ (text.drop s).take (e - s)
        ++ (text.drop e).take (min w (text.length - e))
    ∧ ((text.take s).drop (s - min w s)).length = min w s
    ∧ ((text.drop e).take (min w (text.length - e))).length = min w (text.length - e)
    ∧ ∀ (find : Finder) (ps : List RegexPattern) (m : RegexMatch),
        m ∈ scan_text find ps text w →
          m.context = extract_context text m.start m.stop w := by
  refine ⟨?_, ?_, ?_, ?_⟩
  · unfold extract_context
    have e1 : s - w = s - min w s := by omega
    have e2 : min (e + w) text.length - (s - min w s)
        = min w s + ((e - s) + min w (text.length - e)) := by omega
    rw [e1, e2, List.take_add, List.take_add, List.drop_drop, List.drop_drop]
    have e3 : s - min w s + min w s = s := by omega
    rw [e3]
    have e4 : s + (e - s) = e := by omega
    rw [e4, List.drop_take]
    have e5 : s - (s - min w s) = min w s := by omega
    rw [e5, List.append_assoc]
  · rw [List.length_drop, List.length_take]
    omega
  · rw [List.length_take, List.length_drop]
    omega
  · intro find ps m hm
    simp only [scan_text, List.mem_flatMap, List.mem_map] at hm
    obtain ⟨p, _, se, _, rfl⟩ := hm
    rfl

/-- Witness for C5 at a concrete text, span and window. -/
theorem extract_context_window_correct_witness :
    extract_context "abcd".toList 1 2 5 = "abcd".toList := by
  have h := extract_context_window_correct "abcd".toList 1 2 5 (by decide) (by decide)
  rw [h.1]
  decide

/-- C6: `scan_table` stamps every match with a location descriptor
`row=<i>;column=<name>` where `i` is the row's zero-based ordinal in
the supplied sequence; non-string field values are silently skipped
(never scanned, never erroring); a column absent from a row is
substituted with the empty string; and scanning the rows
`[{"c": "none"}, {"c": "contact x@y.com"}]` with an email-matching
rule yields exactly one match, with location `row=1;column=c`. -/
theorem scan_table_location_spec :
    (∀ (find : Finder) (ps : List RegexPattern) (rows : List Row)
        (cols : Option (List String)) (w : Nat) (m : RegexMatch),
        m ∈ scan_table find ps rows cols w →
          ∃ i name, i < rows.length ∧ m.location = some (locString i name))
    ∧ (∀ (find : Finder) (ps : List RegexPattern) (rows : List Row) (w : Nat),
        (∀ row ∈ rows, ∀ nc ∈ row, nc.2 = Cell.nonstr) →
          scan_table find ps rows none w = [])
    ∧ (∀ (row : Row) (c : String), row.lookup c = none → rowGet row c = Cell.str [])
    ∧ scan_table emailFind [emailRule] exampleRows none 40 = [exampleMatch] := by
  refine ⟨?_, ?_, ?_, by decide⟩
  · intro find ps rows cols w m hm
    simp only [scan_table, List.mem_flatMap] at hm
    obtain ⟨ir, hir, nc, _, hm⟩ := hm
    have hlt : ir.1 < rows.length :=
      (List.mem_enum (show (ir.1, ir.2) ∈ rows.enum from hir)).1
    cases hc : nc.2 with
    | nonstr => rw [hc] at hm; simp at hm
    | str v =>
        rw [hc] at hm
        obtain ⟨m', _, rfl⟩ := List.mem_map.mp hm
        exact ⟨ir.1, nc.1, hlt, rfl⟩
  · intro find ps rows w hall
    simp only [scan_table]
    rw [List.flatMap_eq_nil_iff]
    intro ir hir
    have hmem : ir.2 ∈ rows := by
      have h := List.mem_enum (show (ir.1, ir.2) ∈ rows.enum from hir)
      rw [h.2]
      exact List.getElem_mem h.1
    rw [show rowCells ir.2 none = ir.2 from rfl, List.flatMap_eq_nil_iff]
    intro nc hnc
    rw [hall ir.2 hmem nc hnc]
  · intro row c h
    simp [rowGet, h]

/-- Witness for C6: the location-descriptor part applied to the
example's match, the all-non-string part applied to a one-cell table,
and the absent-column substitution applied to an empty row. -/
theorem scan_table_location_spec_witness :
    (∃ i name, i < exampleRows.length ∧ exampleMatch.location = some (locString i name))
    ∧ scan_table emailFind [emailRule] [[("a", Cell.nonstr)]] none 40 = []
    ∧ rowGet [] "c" = Cell.str [] :=
  ⟨scan_table_location_spec.1 emailFind [emailRule] exampleRows none 40 exampleMatch
      (by decide),
   scan_table_location_spec.2.1 emailFind [emailRule] [[("a", Cell.nonstr)]] 40
      (by decide),
   scan_table_location_spec.2.2.1 [] "c" rfl⟩

/-- A key present in an association list is found by `lookup`. -/
theorem lookup_isSome_of_mem_keys (archive : Archive) (name : String)
    (h : name ∈ archive.map Prod.fst) :
    ∃ bs, archive.lookup name = some bs := by
  induction archive with
  | nil => simp at h
  | cons kv rest ih =>
      by_cases hk : name = kv.1
      · exact ⟨kv.2, by simp [List.lookup, hk]⟩
      · have hmem : name ∈ rest.map Prod.fst := by
          simp only [List.map_cons, List.mem_cons] at h
          exact h.resolve_left hk
        obtain ⟨bs, hbs⟩ := ih hmem
        have hne : (name == kv.1) = false := beq_eq_false_iff_ne.mpr hk
        exact ⟨bs, by simp [List.lookup, hne, hbs]⟩

/-- C1: for every member name present in an evidence container,
`open_member` returns the member's byte stream, and the database
reader's materialization step copies exactly those bytes to the
scratch file. -/
theorem open_member_materializes (archive : Archive) (name : String)
    (h : name ∈ archive.map Prod.fst) :
    ∃ bs, open_member archive name = some bs
      ∧ materialize_member archive name = some bs := by
  obtain ⟨bs, hbs⟩ := lookup_isSome_of_mem_keys archive name h
  exact ⟨bs, hbs, by simp [materialize_member, open_member, hbs]⟩

/-- Witness for C1 on a concrete container holding one database
member. -/
theorem open_member_materializes_witness :
    ∃ bs, open_member archive0 "files/chat.db" = some bs
      ∧ materialize_member archive0 "files/chat.db" = some bs :=
  open_member_materializes archive0 "files/chat.db" (by decide)

/-- C8: database-cell normalization — a `NULL` becomes the empty
string, bytes are decoded as UTF-8 with a fallback to the permissive
single-byte decoding on failure (the fallback decodes every byte, so
normalization never fails), every other value becomes its string
conversion, and normalizing a row keeps its column names. -/
theorem normalize_value_spec :
    normalize_value SqlValue.null = ""
    ∧ (∀ bs cs, utf8Decode bs = Except.ok cs →
        normalize_value (SqlValue.blob bs) = String.mk cs)
    ∧ (∀ bs, utf8Decode bs = Except.error () →
        normalize_value (SqlValue.blob bs) = String.mk (latin1_decode bs))
    ∧ (∀ bs, (latin1_decode bs).length = bs.length)
    ∧ (∀ s, normalize_value (SqlValue.other s) = s)
    ∧ (∀ raw, (normalize_row raw).map Prod.fst = raw.map Prod.fst) := by
  refine ⟨rfl, ?_, ?_, ?_, fun s => rfl, ?_⟩
  · intro bs cs h
    simp [normalize_value, h]
  · intro bs h
    simp [normalize_value, h]
  · intro bs
    simp [latin1_decode]
  · intro raw
    simp [normalize_row]

/-- Witness for C8: a valid UTF-8 blob decodes, an invalid one falls
back to the single-byte decoding. -/
theorem normalize_value_spec_witness :
    normalize_value (SqlValue.blob [104, 105]) = String.mk ['h', 'i']
    ∧ normalize_value (SqlValue.blob [255]) = String.mk (latin1_decode [255]) :=
  ⟨normalize_value_spec.2.1 [104, 105] ['h', 'i'] rfl,
   normalize_value_spec.2.2.1 [255] rfl⟩

/-- Counterexample to C2 as stated: an unrecognized flag name supplied
as a single string does not fail — `_FLAG_TABLE.get(raw_flags.lower(),
default_flags)` silently keeps the default flag set. -/
theorem flags_unrecognized_string_counterexample :
    pattern_flags (some (FlagsValue.str "bogus")) 2 = Except.ok 2 := rfl

/-- Resolving a run of recognized string flags OR-combines their bits
onto the accumulator and continues with the remaining entries. -/
theorem resolveFlagList_append (l : List String) (bs : List Nat)
    (tail : List FlagsValue)
    (h : List.Forall₂ (fun s b => FLAG_TABLE.lookup (str_lower s) = some b) l bs) :
    ∀ acc, resolveFlagList (l.map FlagsValue.str ++ tail) acc
      = resolveFlagList tail (bs.foldl (fun a b => a ||| b) acc) := by
  induction h with
  | nil => intro acc; rfl
  | cons hsb _ ih =>
      intro acc
      simp only [List.map_cons, List.cons_append, resolveFlagList, hsb]
      exact ih (acc ||| _)

/-- C2 (amended): when loading pattern rules, each recognized flag name
among `ignorecase`, `multiline`, `dotall`, `unicode` is mapped to the
engine's flag bit and list entries are OR-combined; an unrecognized
flag name inside a list fails with the unsupported-flag error, but an
unrecognized name supplied as a single string silently keeps the
default flag set; a non-string list element fails with the
names-must-be-strings error and a flags value that is neither a string
nor a list fails with the invalid-flag-type error, all at load time. -/
theorem pattern_flags_spec :
    (∀ d, pattern_flags none d = Except.ok d)
    ∧ (∀ s d b, FLAG_TABLE.lookup (str_lower s) = some b →
        pattern_flags (some (FlagsValue.str s)) d = Except.ok (if b = 0 then d else b))
    ∧ (∀ s d, FLAG_TABLE.lookup (str_lower s) = none →
        pattern_flags (some (FlagsValue.str s)) d = Except.ok d)
    ∧ (∀ (l : List String) (bs : List Nat) d,
        List.Forall₂ (fun s b => FLAG_TABLE.lookup (str_lower s) = some b) l bs →
        pattern_flags (some (FlagsValue.list (l.map FlagsValue.str))) d =
          Except.ok
            (if bs.foldl (fun a b => a ||| b) 0 = 0 then d
             else bs.foldl (fun a b => a ||| b) 0))
    ∧ (∀ (l : List String) (bs : List Nat) (s : String) (rest : List FlagsValue) d,
        List.Forall₂ (fun s b => FLAG_TABLE.lookup (str_lower s) = some b) l bs →
        FLAG_TABLE.lookup (str_lower s) = none →
        pattern_flags (some (FlagsValue.list
            (l.map FlagsValue.str ++ FlagsValue.str s :: rest))) d =
          Except.error ("Unsupported regex flag " ++ s))
    ∧ (∀ (l : List String) (bs : List Nat) (rest : List FlagsValue) d,
        List.Forall₂ (fun s b => FLAG_TABLE.lookup (str_lower s) = some b) l bs →
        pattern_flags (some (FlagsValue.list
            (l.map FlagsValue.str ++ FlagsValue.other :: rest))) d =
          Except.error "Regex flag names must be strings")
    ∧ (∀ d, pattern_flags (some FlagsValue.other) d =
        Except.error "Regex flags must be a string or list of strings") := by
  refine ⟨?_, ?_, ?_, ?_, ?_, ?_, fun d => rfl⟩
  · intro d
    simp [pattern_flags, resolveFlags, Except.map]
  · intro s d b h
    simp [pattern_flags, resolveFlags, h, Except.map]
  · intro s d h
    simp [pattern_flags, resolveFlags, h, Except.map]
  · intro l bs d h
    have key := resolveFlagList_append l bs [] h 0
    simp only [List.append_nil] at key
    simp [pattern_flags, resolveFlags, key, resolveFlagList, Except.map]
  · intro l bs s rest d h hs
    have key := resolveFlagList_append l bs (FlagsValue.str s :: rest) h 0
    simp [pattern_flags, resolveFlags, key, resolveFlagList, hs, Except.map]
  · intro l bs rest d h
    have key := resolveFlagList_append l bs (FlagsValue.other :: rest) h 0
    simp [pattern_flags, resolveFlags, key, resolveFlagList, Except.map]

/-- Witness for C2's amended statement: a recognized single flag maps
to its bit, a recognized list OR-combines, an unrecognized list entry
fails, and an unrecognized single string keeps the default. -/
theorem pattern_flags_spec_witness :
    pattern_flags (some (FlagsValue.str "IGNORECASE")) 0 = Except.ok (if 2 = 0 then 0 else 2)
    ∧ pattern_flags (some (FlagsValue.list
        ((["multiline", "dotall"].map FlagsValue.str)))) 2 =
        Except.ok
          (if [8, 16].foldl (fun a b => a ||| b) 0 = 0 then 2
           else [8, 16].foldl (fun a b => a ||| b) 0)
    ∧ pattern_flags (some (FlagsValue.list
        (([] : List String).map FlagsValue.str ++ FlagsValue.str "bogus" :: []))) 2 =
        Except.error ("Unsupported regex flag " ++ "bogus")
    ∧ pattern_flags (some (FlagsValue.str "weird")) 2 = Except.ok 2 :=
  ⟨pattern_flags_spec.2.1 "IGNORECASE" 0 2 rfl,
   pattern_flags_spec.2.2.2.1 ["multiline", "dotall"] [8, 16] 2
     (List.Forall₂.cons rfl (List.Forall₂.cons rfl List.Forall₂.nil)),
   pattern_flags_spec.2.2.2.2.1 [] [] "bogus" [] 2 List.Forall₂.nil rfl,
   pattern_flags_spec.2.2.1 "weird" 2 rfl⟩

/-- Reading a serialized record back recovers the record exactly. -/
theorem from_dict_to_dict (m : EvidenceMatch) : from_dict (to_dict m) = some m := by
  rcases m with ⟨a, b, c, v, ft, cx, ts⟩
  cases ft <;> cases cx <;> cases ts <;> rfl

/-- C7: writing the structured report and parsing it back yields
exactly the records that were added, in order; every serialized object
carries the four required fields, and carries each optional field
exactly when its value is present (with that value). -/
theorem write_json_round_trip :
    (∀ records : List EvidenceMatch, (write_json records).map from_dict = records.map some)
    ∧ (∀ m : EvidenceMatch,
        (to_dict m).lookup "source_file" = some m.source_file
        ∧ (to_dict m).lookup "internal_path" = some m.internal_path
        ∧ (to_dict m).lookup "pattern_type" = some m.pattern_type
        ∧ (to_dict m).lookup "match_value" = some m.match_value
        ∧ (to_dict m).lookup "file_type" = m.file_type
        ∧ (to_dict m).lookup "context" = m.context
        ∧ (to_dict m).lookup "timestamp" = m.timestamp) := by
  constructor
  · intro records
    simp [write_json, List.map_map, Function.comp_def, from_dict_to_dict]
  · intro m
    rcases m with ⟨a, b, c, v, ft, cx, ts⟩
    cases ft <;> cases cx <;> cases ts <;>
      exact ⟨rfl, rfl, rfl, rfl, rfl, rfl, rfl⟩

/-- Each archive's processing raises before touching the reporter; the
runner catches every error and continues, so the final reporter state
is empty and the recorded failures are exactly the processed items, in
order. -/
theorem execute_with_resilience_all_fail (paths : List String) :
    execute_with_resilience paths process_file_model [] = ([], paths) := by
  induction paths using List.reverseRecOn with
  | nil => rfl
  | append_singleton ps p ih =>
      unfold execute_with_resilience at ih ⊢
      rw [List.foldl_append, ih]
      simp [process_file_model]

/-- C4: any uncaught error raised while processing one archive — in
this source, the `TypeError` `process_file` raises at navigator
construction for every archive — is caught, recorded as a failure for
that archive, and processing continues with the next archive; the run
summary reports `processed` equal to the number of discovered archives
and a failures list containing exactly the paths of the failed
archives (all of them, since each fails before producing a payload),
and the evidence records are accumulated only from archives that did
not fail (none succeed, and indeed no record accumulates); the error
is never propagated past the runner boundary. -/
theorem run_pipeline_failure_isolation (paths : List String) :
    run_pipeline_model paths =
      ({ processed := paths.length, failures := paths, match_total := 0 }, []) := by
  simp only [run_pipeline_model]
  rw [execute_with_resilience_all_fail]
  rfl

/-- C3: when a plan holds at least one database member and at least one
textual member, `collect_payloads` equals the database-only run
followed by the textual-only run — every database row is drained first,
then every textual member is processed one at a time in plan order, so
database priority affects ordering only, never exclusion. -/
theorem collect_payloads_database_priority (ufdr : String) (env : NavEnv)
    (plan : NavigatorPlan) (_hdb : plan.database_members ≠ [])
    (_htx : plan.textual_members ≠ []) :
    collect_payloads ufdr env plan =
      collect_payloads ufdr env
        { members := plan.members
          database_members := plan.database_members
          textual_members := [] }
      ++ collect_payloads ufdr env
        { members := plan.members
          database_members := []
          textual_members := plan.textual_members } := by
  simp [collect_payloads, textual_trace]

/-- Witness for C3 on a plan holding one database and one textual
member. -/
theorem collect_payloads_database_priority_witness :
    (collect_payloads "case.ufdr" env0 plan0).length = 4 := by
  rw [collect_payloads_database_priority "case.ufdr" env0 plan0 (by decide) (by decide)]
  decide

/-- C9: `collect_payloads` never emits a text payload whose content is
empty or whitespace-only — a conversion producing blank text makes the
member be skipped with no payload emitted. -/
theorem collect_payloads_no_blank_text (ufdr : String) (env : NavEnv)
    (plan : NavigatorPlan) (p : EvidencePayload)
    (hp : TraceItem.payload p ∈ collect_payloads ufdr env plan)
    (ht : p.payload_type = PayloadType.text) :
    ∃ s, p.content = PayloadContent.textC s ∧ str_strip s ≠ "" := by
  rcases List.mem_append.mp hp with h | h
  · exfalso
    simp only [List.mem_flatMap, List.mem_map] at h
    obtain ⟨m, _, q, hq, heq⟩ := h
    cases heq
    simp only [collect_database_rows, List.mem_map] at hq
    obtain ⟨r, _, rfl⟩ := hq
    simp at ht
  · simp only [textual_trace, List.mem_flatMap] at h
    obtain ⟨im, _, h⟩ := h
    simp only [textual_member_trace] at h
    rcases hcp : collect_text_payload ufdr env im.2 with _ | pe
    · rw [hcp] at h
      simp at h
    · rw [hcp] at h
      simp at h
      subst h
      rcases hex : env.extractText im.2 with ⟨text, engine⟩ | msg | msg
      · simp only [collect_text_payload, hex] at hcp
        by_cases htr : str_strip text = ""
        · rw [if_pos htr] at hcp
          cases hcp
        · rw [if_neg htr] at hcp
          obtain rfl := (Option.some.injEq _ _).mp hcp
          exact ⟨text, rfl, htr⟩
      · simp only [collect_text_payload, hex] at hcp
        cases hcp
      · simp only [collect_text_payload, hex] at hcp
        cases hcp

/-- Witness for C9: the concrete text payload the example environment
yields indeed carries non-blank content. -/
theorem collect_payloads_no_blank_text_witness :
    ∃ s, payload0.content = PayloadContent.textC s ∧ str_strip s ≠ "" :=
  collect_payloads_no_blank_text "case.ufdr" env0 plan0 payload0 (by decide) (by decide)
